import Mathlib

/-!
Verification of the agent orchestration layer of the `ui-agent` repository
(`agent.py`, `tools.py`, `providers.py`) against its natural-language
specification.

The Python source is shallowly embedded: the agent loop (`run_agent`,
`agent.py` lines 72-175) becomes a fuel-indexed recursive function over an
explicit conversation state, the tools (`tools.py`) become pure functions
over a modelled filesystem, and the provider conversion helpers
(`providers.py`) become functions over modelled schema/JSON values.
Network and LLM calls are abstracted as function parameters ("oracles"):
the loop receives the adapter as a function from call index and history to
a chat response, and the web tools receive the HTTP layer as a function
returning either a body or an exception message.
-/

namespace UIUX

/-! ## Content model (providers.py lines 289-301, agent.py lines 140-170)

`TextBlock`, `ToolUseBlock` and the `tool_result` dicts built by the loop
are one closed inductive. The Python code discriminates with
`hasattr(block, "text")` and `block.type == "tool_use"`; only the `text`
constructor has a `text` attribute, only `toolUse` has type `"tool_use"`. -/

/-- A tool-call argument mapping: Python `dict` with string keys and string
values, in insertion order (all tool schemas of `tools.py` declare only
string properties). -/
abbrev InputMap := List (String × String)

/-- One content block: `TextBlock {text}`, `ToolUseBlock {id, name, input}`
or a `tool_result` dict `{tool_use_id, tool_name, content}`. -/
inductive ContentBlock where
  | text (text : String)
  | toolUse (id name : String) (input : InputMap)
  | toolResult (tool_use_id tool_name content : String)
deriving DecidableEq

/-- A message's `content` field: a plain string or a list of blocks. -/
inductive MessageContent where
  | ofString (s : String)
  | ofBlocks (blocks : List ContentBlock)
deriving DecidableEq

/-- One conversation turn: `{"role": ..., "content": ...}`. -/
structure Message where
  role : String
  content : MessageContent
deriving DecidableEq

/-- A provider's normalized return: `{'content': ..., 'stop_reason': ...}`. -/
structure ChatResponse where
  content : List ContentBlock
  stop_reason : String
deriving DecidableEq

/-- Concatenation of the text of all `TextBlock`s of a response, in order
(`agent.py` lines 127-130: `for block in response['content']: if
hasattr(block, "text"): final_text += block.text`). -/
def concatTexts (blocks : List ContentBlock) : String :=
  blocks.foldl
    (fun acc b =>
      match b with
      | ContentBlock.text t => acc ++ t
      | _ => acc)
    ""

/-- Python `str` applied to a string: its `repr` with single quotes (no
escaping modelled; the inputs used here contain no quotes). -/
def pyStrRepr (s : String) : String := "'" ++ s ++ "'"

/-- Python `str` applied to an `InputMap` dict, e.g.
`\x7b'directory': './proj'\x7d` (`providers.py` line 110 and the verbose
print of `agent.py` line 151). -/
def pyDictRepr (m : InputMap) : String :=
  "\x7b" ++
    String.intercalate ", " (m.map (fun kv => pyStrRepr kv.1 ++ ": " ++ pyStrRepr kv.2)) ++
  "\x7d"

/-- Truncated display used by the verbose prints of `agent.py` lines
150-153 and 159: `s[:n] + "..." if len(s) > n else s`. -/
def truncateStr (s : String) (n : Nat) : String :=
  if s.length > n then s.take n ++ "..." else s

/-! ## The tool-dispatch loop inside one turn (agent.py lines 145-167)

Tool execution is abstracted as `exec : σ → name → input → result × σ`: a
total function of a threaded world state (the filesystem and network the
tools touch). For each `tool_use` block, in emission order, the loop
executes the tool and wraps the result into a `tool_result` dict carrying
the originating block's `id` and `name`; other blocks produce nothing.
The third component collects the verbose prints (tool name, truncated
input, truncated result); it is `[]` when `verbose` is false. -/

def runTools {σ : Type} (exec : σ → String → InputMap → String × σ) (verbose : Bool) :
    σ → List ContentBlock → List ContentBlock × σ × List String
  | s, [] => ([], s, [])
  | s, ContentBlock.toolUse i n inp :: rest =>
      let r := exec s n inp
      let k := runTools exec verbose r.2 rest
      (ContentBlock.toolResult i n r.1 :: k.1, k.2.1,
        (if verbose then
          ["  > Tool: " ++ n,
           "    Input: " ++ truncateStr (pyDictRepr inp) 100,
           "    Result: " ++ truncateStr r.1 150]
         else []) ++ k.2.2)
  | s, ContentBlock.text _ :: rest => runTools exec verbose s rest
  | s, ContentBlock.toolResult _ _ _ :: rest => runTools exec verbose s rest

/-! ## The agent loop (agent.py lines 72-175) -/

/-- Everything observable about a finished run: the returned string, the
conversation as mutated, the final iteration counter, how many times
`provider.chat` was called, the final tool-world state, and the verbose
telemetry that was printed. -/
structure RunResult (σ : Type) where
  result : String
  messages : List Message
  iteration : Nat
  chatCalls : Nat
  state : σ
  log : List String

/-- The `while iteration < max_iterations` loop of `run_agent`, with
`fuel = max_iterations - iteration` as the recursion measure. Each pass
increments the iteration counter, makes exactly one `chat` call (the
adapter is `chat : call index → history → response`), and then: on
`end_turn` returns the concatenated text; on `tool_use` appends the
assistant content, executes every tool-use block in order, appends the
results as one user message and recurses; on any other stop reason
returns the diagnostic immediately. When fuel runs out it returns the
max-iterations message. -/
def runLoop {σ : Type} (chat : Nat → List Message → ChatResponse)
    (exec : σ → String → InputMap → String × σ) (verbose : Bool) :
    Nat → List Message → Nat → Nat → σ → List String → RunResult σ
  | 0, messages, iteration, calls, s, log =>
      ⟨"Agent reached maximum iterations without completing.",
        messages, iteration, calls, s, log⟩
  | fuel+1, messages, iteration, calls, s, log =>
      let log1 :=
        if verbose then log ++ ["[Iteration " ++ Nat.repr (iteration + 1) ++ "] Thinking..."]
        else log
      let response := chat calls messages
      if response.stop_reason = "end_turn" then
        ⟨concatTexts response.content, messages, iteration + 1, calls + 1, s,
          if verbose then log1 ++ ["AGENT COMPLETE"] else log1⟩
      else if response.stop_reason = "tool_use" then
        let k := runTools exec verbose s response.content
        runLoop chat exec verbose fuel
          (messages ++
            [⟨"assistant", MessageContent.ofBlocks response.content⟩,
             ⟨"user", MessageContent.ofBlocks k.1⟩])
          (iteration + 1) (calls + 1) k.2.1 (log1 ++ k.2.2)
      else
        ⟨"Agent stopped unexpectedly: " ++ response.stop_reason,
          messages, iteration + 1, calls + 1, s, log1⟩

/-- The seed message of a run (`agent.py` lines 93-98). -/
def seedMessage (user_message project_path : String) : Message :=
  ⟨"user", MessageContent.ofString
    ("Project directory: " ++ project_path ++ "\n\nTask: " ++ user_message)⟩

/-- The banner printed before the loop when verbose (`agent.py` lines
100-107), with the task truncated to 100 characters. -/
def headerLog (user_message project_path : String) (verbose : Bool) : List String :=
  if verbose then
    ["UI/UX RESEARCH AGENT",
     "Task: " ++ truncateStr user_message 100,
     "Project: " ++ project_path]
  else []

/-- The whole of `run_agent`: seed the conversation with the project path
and the task, then run the loop with `iteration = 0` and the hard-coded
`max_iterations = 15` (`agent.py` lines 109-110). -/
def run_agent {σ : Type} (chat : Nat → List Message → ChatResponse)
    (exec : σ → String → InputMap → String × σ)
    (user_message project_path : String) (verbose : Bool) (s : σ) : RunResult σ :=
  runLoop chat exec verbose 15 [seedMessage user_message project_path] 0 0 s
    (headerLog user_message project_path verbose)

/-! ## The filesystem model and the file tools (tools.py)

A path names a file or a directory by its `/`-separated components. The
filesystem keeps files (keyed by parent components and final name, with
their text) and directories as separate tables; a run starts from an
arbitrary such state. Name collisions between a file and a directory at
the same path (which would make `mkdir` or `write_text` raise) are not
represented: each table is consulted only where the Python code consults
the corresponding kind of entry. -/

/-- A modelled filesystem: text files keyed by (parent components, file
name), and the set of existing directories as component lists. -/
structure FS where
  files : List ((List String × String) × String)
  dirs : List (List String)
deriving DecidableEq

/-- Split a character list at `/` characters (structural recursion, so
that concrete paths evaluate). -/
def splitSlash : List Char → List (List Char)
  | [] => [[]]
  | c :: rest =>
      let r := splitSlash rest
      if c = '/' then [] :: r
      else (c :: r.headD []) :: r.tail

/-- Components of a path string, split on `/` (what `pathlib.Path` iterates
for the relative paths used by the tools). -/
def splitPath (p : String) : List String := (splitSlash p.data).map List.asString

/-- Join path components back into the string `pathlib` would print. -/
def renderPath (comps : List String) : String := String.intercalate "/" comps

/-- The content of the file at `key`, when one exists. -/
def lookupFile (fs : FS) (key : List String × String) : Option String :=
  (fs.files.find? (fun e => decide (e.1 = key))).map (fun e => e.2)

/-- Whether a file exists at `key`. -/
def fileExists (fs : FS) (key : List String × String) : Bool :=
  (lookupFile fs key).isSome

/-- Whether a directory exists at `comps`. -/
def dirExists (fs : FS) (comps : List String) : Bool :=
  fs.dirs.any (fun d => decide (d = comps))

/-- Python `Path(...).exists()` for the entry with parent `parent` and
final name `name`: true when a file or a directory is there. -/
def pathExistsPN (fs : FS) (parent : List String) (name : String) : Bool :=
  fileExists fs (parent, name) || dirExists fs (parent ++ [name])

/-- `Path(p).exists()` for a whole component list. -/
def pathExistsC (fs : FS) (comps : List String) : Bool :=
  pathExistsPN fs comps.dropLast (comps.getLastD "")

/-- The `(stem, suffix)` split `pathlib` performs on a file name: the split
is at the last dot, provided that dot is neither the first nor the last
character; otherwise the suffix is empty. -/
def pySplitExt (name : String) : String × String :=
  let cs := name.data
  match cs.reverse.findIdx? (fun c => c = '.') with
  | none => (name, "")
  | some j =>
      let i := cs.length - 1 - j
      if 0 < i ∧ i < cs.length - 1 then ((cs.take i).asString, (cs.drop i).asString)
      else (name, "")

/-- `read_file` (`tools.py` lines 10-22): a missing path gives the
`Error: File ... not found` string; an existing file gives its content,
truncated at 10000 characters with a visible marker. Reading a directory
raises inside the `try` and is returned as an error string, whose OS text
is abbreviated here. -/
def read_file (fs : FS) (file_path : String) : String :=
  let comps := splitPath file_path
  if pathExistsPN fs comps.dropLast (comps.getLastD "") = false then
    "Error: File " ++ file_path ++ " not found"
  else
    match lookupFile fs (comps.dropLast, comps.getLastD "") with
    | some content =>
        if content.length > 10000 then content.take 10000 ++ "\n\n... [truncated]"
        else content
    | none => "Error reading file: Is a directory: " ++ file_path

/-- The directory names `list_files` skips (`tools.py` line 36). -/
def skipDirs : List String := ["node_modules", ".git", "__pycache__", ".next"]

/-- Whether `pat` occurs inside `s` (Python `pat in s`). -/
def containsSub (s pat : String) : Bool := (s.splitOn pat).length != 1

/-- Insert a string into a lexicographically sorted list. -/
def insertSorted (s : String) : List String → List String
  | [] => [s]
  | t :: rest => if s ≤ t then s :: t :: rest else t :: insertSorted s rest

/-- Python `sorted` on strings. -/
def sortStrings (l : List String) : List String := l.foldr insertSorted []

/-- `list_files` (`tools.py` lines 25-43): a missing directory gives the
`Error: Directory ... not found` string; otherwise every file under the
directory whose full path avoids the skipped directory names and whose
suffix matches the optional filter is listed by its relative path, sorted,
capped at 50 entries and joined with newlines. -/
def list_files (fs : FS) (directory : String) (extension : Option String) : String :=
  let dirComps := splitPath directory
  if pathExistsC fs dirComps = false then
    "Error: Directory " ++ directory ++ " not found"
  else
    let entries := fs.files.filterMap (fun e =>
      let parent := e.1.1
      let name := e.1.2
      if dirComps.isPrefixOf parent then
        if skipDirs.any (fun skip => containsSub (renderPath (parent ++ [name])) skip) then
          none
        else if (match extension with
                 | none => true
                 | some ext => decide ((pySplitExt name).2 = ext)) then
          some (renderPath (parent.drop dirComps.length ++ [name]))
        else none
      else none)
    String.intercalate "\n" ((sortStrings entries).take 50)

/-- The first candidate name `write_file` tries for an occupied path:
`f"\x7bstem\x7d.new\x7bsuffix\x7d"` (`tools.py` line 56). -/
def newName (stem suffix : String) : String := stem ++ ".new" ++ suffix

/-- The numbered candidates `f"\x7bstem\x7d.new\x7bcounter\x7d\x7bsuffix\x7d"`
tried from `counter = 2` on (`tools.py` line 61). -/
def numberedName (stem suffix : String) (counter : Nat) : String :=
  stem ++ ".new" ++ Nat.repr counter ++ suffix

/-- The `while new_path.exists()` search of `tools.py` lines 59-62: the
first counter `k ≥ counter` whose numbered candidate is unoccupied. The
Python loop has no bound; here the recursion carries fuel, and
`findCounter_spec` below shows that `fs.files.length + fs.dirs.length + 1`
fuel always reaches a free name, so the embedded function agrees with the
unbounded loop. -/
def findCounter (fs : FS) (parent : List String) (stem suffix : String) :
    Nat → Nat → Nat
  | counter, 0 => counter
  | counter, fuel+1 =>
      if pathExistsPN fs parent (numberedName stem suffix counter) then
        findCounter fs parent stem suffix (counter + 1) fuel
      else counter

/-- The name `write_file` actually writes under `parent`: the requested
`name` when it is free, otherwise `stem.new`, otherwise the first free
`stem.newK` with `K ≥ 2` (`tools.py` lines 51-64). -/
def chooseWriteName (fs : FS) (parent : List String) (name : String) : String :=
  if pathExistsPN fs parent name then
    let se := pySplitExt name
    if pathExistsPN fs parent (newName se.1 se.2) then
      numberedName se.1 se.2
        (findCounter fs parent se.1 se.2 2 (fs.files.length + fs.dirs.length + 1))
    else newName se.1 se.2
  else name

/-- `write_file` (`tools.py` lines 46-70): pick the target name (never an
occupied one), create the parent directories (`mkdir(parents=True,
exist_ok=True)` adds every missing ancestor), write the content and report
the path written. -/
def write_file (fs : FS) (file_path content : String) : FS × String :=
  let comps := splitPath file_path
  let parent := comps.dropLast
  let name := comps.getLastD ""
  let target := chooseWriteName fs parent name
  (⟨((parent, target), content) :: fs.files, fs.dirs ++ parent.inits⟩,
   "Successfully wrote to " ++ renderPath (parent ++ [target]))

/-! ## The network tools and dispatch (tools.py lines 73-122, agent.py lines 56-69)

`search_web` and `fetch_url` wrap an HTTP call and HTML extraction in a
`try`/`except` that turns any exception into an error string. The HTTP
and parsing layer is abstracted as an oracle returning either the
extracted result text or the exception's message. -/

/-- `search_web` (`tools.py` lines 73-97): the oracle's body on success,
`Search error: ...` on an exception. -/
def search_web (web : String → Except String String) (query : String) : String :=
  match web query with
  | Except.ok body => body
  | Except.error e => "Search error: " ++ e

/-- `fetch_url` (`tools.py` lines 100-122): the oracle's text on success,
`Fetch error: ...` on an exception. -/
def fetch_url (net : String → Except String String) (url : String) : String :=
  match net url with
  | Except.ok body => body
  | Except.error e => "Fetch error: " ++ e

/-- The world the tools act on: the filesystem plus the two network
oracles. -/
structure ToolState where
  fs : FS
  web : String → Except String String
  net : String → Except String String

/-- Python `input_data["k"]` / `input_data.get("k")`: the value at key `k`. -/
def lookupArg (m : InputMap) (k : String) : Option String :=
  (m.find? (fun kv => decide (kv.1 = k))).map (fun kv => kv.2)

/-- `execute_tool` (`agent.py` lines 56-69): dispatch on the tool name; a
name that is none of the five registered tools returns the
`Unknown tool: ...` string. A missing required argument key raises
`KeyError` in Python (`input_data["..."]` outside any `try`), modelled as
the `Except.error` case; `get` for the optional extension never raises. -/
def execute_tool (st : ToolState) (name : String) (input_data : InputMap) :
    Except String (String × ToolState) :=
  if name = "read_file" then
    match lookupArg input_data "file_path" with
    | some fp => Except.ok (read_file st.fs fp, st)
    | none => Except.error "KeyError: file_path"
  else if name = "list_files" then
    match lookupArg input_data "directory" with
    | some d => Except.ok (list_files st.fs d (lookupArg input_data "extension"), st)
    | none => Except.error "KeyError: directory"
  else if name = "write_file" then
    match lookupArg input_data "file_path", lookupArg input_data "content" with
    | some fp, some c =>
        let r := write_file st.fs fp c
        Except.ok (r.2, ⟨r.1, st.web, st.net⟩)
    | _, _ => Except.error "KeyError"
  else if name = "search_web" then
    match lookupArg input_data "query" with
    | some q => Except.ok (search_web st.web q, st)
    | none => Except.error "KeyError: query"
  else if name = "fetch_url" then
    match lookupArg input_data "url" with
    | some u => Except.ok (fetch_url st.net u, st)
    | none => Except.error "KeyError: url"
  else Except.ok ("Unknown tool: " ++ name, st)

/-! ## Gemini tool-schema conversion (providers.py lines 169-207)

`_convert_tools_to_gemini` walks each tool's JSON-Schema properties and
rebuilds them as Gemini `Schema` values. The dispatch is on
`prop_def.get("type", "string").upper()` with branches for `STRING`,
`INTEGER` and `BOOLEAN` only — and no `else` branch. -/

/-- One JSON-Schema property definition as the converter reads it: its
optional `type` and optional `description`. -/
structure PropDef where
  type? : Option String
  descr? : Option String
deriving DecidableEq

/-- A tool's `input_schema`: ordered properties and the `required` list. -/
structure InputSchema where
  properties : List (String × PropDef)
  required : List String
deriving DecidableEq

/-- A tool descriptor as in `TOOLS` (`tools.py` lines 126-205). -/
structure ToolDescr where
  name : String
  description : String
  input_schema : InputSchema
deriving DecidableEq

/-- The Gemini schema types the converter emits. -/
inductive GType where
  | STRING
  | INTEGER
  | BOOLEAN
  | OBJECT
deriving DecidableEq

/-- A Gemini property schema: `types.Schema(type=..., description=...)`. -/
structure GSchema where
  type : GType
  description : String
deriving DecidableEq

/-- A Gemini `FunctionDeclaration` with its `OBJECT` parameters schema. -/
structure GFunctionDeclaration where
  name : String
  description : String
  paramProperties : List (String × GSchema)
  required : List String
deriving DecidableEq

/-- Python `str.upper()` on the ASCII type names involved: character-wise
upper-casing. -/
def pyUpper (s : String) : String := (s.data.map Char.toUpper).asString

/-- The per-property conversion (`providers.py` lines 178-194): the
declared type, defaulted to `"string"` and upper-cased, selects `STRING`,
`INTEGER` or `BOOLEAN`; any other declared type matches no branch, so the
property yields nothing. -/
def convertPropGemini (prop : PropDef) : Option GSchema :=
  let t := pyUpper (prop.type?.getD "string")
  if t = "STRING" then some ⟨GType.STRING, prop.descr?.getD ""⟩
  else if t = "INTEGER" then some ⟨GType.INTEGER, prop.descr?.getD ""⟩
  else if t = "BOOLEAN" then some ⟨GType.BOOLEAN, prop.descr?.getD ""⟩
  else none

/-- `_convert_tools_to_gemini` (`providers.py` lines 169-207): one
declaration per tool, keeping name, description and `required` verbatim,
with the properties rebuilt by `convertPropGemini` in order (properties
whose conversion yields nothing are dropped from the declaration). -/
def convert_tools_to_gemini (tools : List ToolDescr) : List GFunctionDeclaration :=
  tools.map (fun tool =>
    ⟨tool.name, tool.description,
      tool.input_schema.properties.filterMap
        (fun p => (convertPropGemini p.2).map (fun g => (p.1, g))),
      tool.input_schema.required⟩)

/-! ## OpenAI argument serialization and JSON decoding (providers.py lines 95-155)

Outbound, `_convert_messages_to_openai` renders a `ToolUseBlock`'s input
mapping with Python `str` (line 110). Inbound, `chat` decodes the vendor's
`arguments` string with `json.loads` (line 147). `json_loads` below models
the JSON value grammar `json.loads` accepts (object keys and strings are
double-quoted; numbers restricted to integers, which covers every value a
tool-call mapping here can hold); a parse failure is `none`, where Python
raises `json.JSONDecodeError`. -/

/-- A JSON value. -/
inductive Json where
  | null
  | bool (b : Bool)
  | num (n : Int)
  | str (s : String)
  | arr (elems : List Json)
  | obj (fields : List (String × Json))

/-- JSON whitespace. -/
def jsonWs (c : Char) : Bool := c = ' ' || c = '\n' || c = '\t' || c = '\r'

/-- Drop leading JSON whitespace. -/
def skipWs (cs : List Char) : List Char := cs.dropWhile jsonWs

/-- Parse the rest of a double-quoted JSON string literal (the opening
quote already consumed), handling the single-character escapes. -/
def parseStringLit : List Char → Option (String × List Char)
  | [] => none
  | c :: rest =>
      if c = '"' then some ("", rest)
      else if c = '\\' then
        match rest with
        | [] => none
        | e :: rest2 =>
            let esc : Option Char :=
              if e = '"' then some '"'
              else if e = '\\' then some '\\'
              else if e = '/' then some '/'
              else if e = 'n' then some '\n'
              else if e = 't' then some '\t'
              else if e = 'r' then some '\r'
              else none
            match esc with
            | some ch => (parseStringLit rest2).map (fun p => (String.singleton ch ++ p.1, p.2))
            | none => none
      else (parseStringLit rest).map (fun p => (String.singleton c ++ p.1, p.2))

/-- Parse a nonempty run of decimal digits. -/
def parseNat (cs : List Char) : Option (Nat × List Char) :=
  let ds := cs.takeWhile (fun c => c.isDigit)
  if ds.isEmpty then none
  else some (ds.foldl (fun a c => a * 10 + (c.toNat - 48)) 0,
    cs.dropWhile (fun c => c.isDigit))

mutual

/-- Parse one JSON value; `fuel` bounds the nesting depth. -/
def parseVal : Nat → List Char → Option (Json × List Char)
  | 0, _ => none
  | fuel+1, cs =>
      match skipWs cs with
      | [] => none
      | c :: rest =>
          if c = '"' then (parseStringLit rest).map (fun p => (Json.str p.1, p.2))
          else if c = '{' then
            match skipWs rest with
            | '}' :: rest2 => some (Json.obj [], rest2)
            | _ => (parseMembers fuel rest).map (fun p => (Json.obj p.1, p.2))
          else if c = '[' then
            match skipWs rest with
            | ']' :: rest2 => some (Json.arr [], rest2)
            | _ => (parseElems fuel rest).map (fun p => (Json.arr p.1, p.2))
          else if c = 't' then
            if rest.take 3 = ['r', 'u', 'e'] then some (Json.bool true, rest.drop 3)
            else none
          else if c = 'f' then
            if rest.take 4 = ['a', 'l', 's', 'e'] then some (Json.bool false, rest.drop 4)
            else none
          else if c = 'n' then
            if rest.take 3 = ['u', 'l', 'l'] then some (Json.null, rest.drop 3)
            else none
          else if c = '-' then
            (parseNat rest).map (fun p => (Json.num (-(p.1 : Int)), p.2))
          else if c.isDigit then
            (parseNat (c :: rest)).map (fun p => (Json.num (p.1 : Int), p.2))
          else none

/-- Parse the members of a JSON object after its `{`: each key must be a
double-quoted string. -/
def parseMembers : Nat → List Char → Option (List (String × Json) × List Char)
  | 0, _ => none
  | fuel+1, cs =>
      match skipWs cs with
      | '"' :: rest =>
          match parseStringLit rest with
          | none => none
          | some (key, rest2) =>
              match skipWs rest2 with
              | ':' :: rest3 =>
                  match parseVal fuel rest3 with
                  | none => none
                  | some (v, rest4) =>
                      match skipWs rest4 with
                      | ',' :: rest5 =>
                          (parseMembers fuel rest5).map (fun p => ((key, v) :: p.1, p.2))
                      | '}' :: rest5 => some ([(key, v)], rest5)
                      | _ => none
              | _ => none
      | _ => none

/-- Parse the elements of a JSON array after its `[`. -/
def parseElems : Nat → List Char → Option (List Json × List Char)
  | 0, _ => none
  | fuel+1, cs =>
      match parseVal fuel cs with
      | none => none
      | some (v, rest) =>
          match skipWs rest with
          | ',' :: rest2 => (parseElems fuel rest2).map (fun p => (v :: p.1, p.2))
          | ']' :: rest2 => some ([v], rest2)
          | _ => none

end

/-- `json.loads`: parse one JSON value and require only whitespace after
it; `none` models the raised `JSONDecodeError`. -/
def json_loads (s : String) : Option Json :=
  match parseVal (s.length + 1) s.data with
  | some (v, rest) => if skipWs rest = [] then some v else none
  | none => none

/-- Read a decoded JSON object back as a string-valued argument mapping
(the shape a `ToolUseBlock.input` of this agent has). -/
def jsonToInputMap : Json → Option InputMap
  | Json.obj fields =>
      fields.mapM (fun kv =>
        match kv.2 with
        | Json.str s => some (kv.1, s)
        | _ => none)
  | _ => none

/-- One entry of an OpenAI `tool_calls` list as `_convert_messages_to_openai`
builds it. -/
structure OpenAIToolCall where
  id : String
  name : String
  arguments : String
deriving DecidableEq

/-- The `arguments` string produced for a `ToolUseBlock` whose `input` is a
mapping (`providers.py` line 110): Python `str(block.input)`. -/
def openaiArguments (input : InputMap) : String := pyDictRepr input

/-- The `tool_calls` built from an assistant turn's blocks
(`providers.py` lines 101-112). -/
def openaiToolCallsOfBlocks (blocks : List ContentBlock) : List OpenAIToolCall :=
  blocks.filterMap (fun b =>
    match b with
    | ContentBlock.toolUse i n inp => some ⟨i, n, openaiArguments inp⟩
    | _ => none)

/-- The decoder `chat` applies to a tool call's `arguments`
(`providers.py` line 147): `json.loads` into a mapping. -/
def decodeOpenaiArguments (s : String) : Option InputMap :=
  match json_loads s with
  | some j => jsonToInputMap j
  | none => none

/-! ## Derived notions used by the theorems -/

/-- The `(id, name)` pair of a `tool_result` block. -/
def resultSkeleton : ContentBlock → Option (String × String)
  | ContentBlock.toolResult i n _ => some (i, n)
  | _ => none

/-- The `(id, name)` pair of a `tool_use` block. -/
def useSkeleton : ContentBlock → Option (String × String)
  | ContentBlock.toolUse i n _ => some (i, n)
  | _ => none

/-- The tool-results message `results` answers the assistant content
`blocks` exactly: every element of `results` is a `tool_result` block, and
the sequence of their `(tool_use_id, tool_name)` pairs equals the sequence
of `(id, name)` pairs of the `tool_use` blocks of `blocks` — one result
per request, same identifiers, same order. -/
def resultsCorrespond (blocks results : List ContentBlock) : Prop :=
  results.filterMap resultSkeleton = blocks.filterMap useSkeleton ∧
    ∀ b ∈ results, (resultSkeleton b).isSome

/-- The shape of everything the loop appends after the seed message:
assistant/user pairs where the user message answers the assistant turn's
tool requests (`resultsCorrespond`), in order, with nothing in between. -/
inductive PairedTurns : List Message → Prop where
  | nil : PairedTurns []
  | cons (blocks results : List ContentBlock) (rest : List Message) :
      resultsCorrespond blocks results → PairedTurns rest →
      PairedTurns
        (⟨"assistant", MessageContent.ofBlocks blocks⟩ ::
         ⟨"user", MessageContent.ofBlocks results⟩ :: rest)

/-- Decimal digits of `n`, most significant first: the recursion
`Nat.toDigitsCore` implements with fuel, written as plain well-founded
recursion so that it can be reasoned about. -/
def decDigits (n : Nat) : List Char :=
  if n < 10 then [Nat.digitChar n]
  else decDigits (n / 10) ++ [Nat.digitChar (n % 10)]
termination_by n
decreasing_by exact Nat.div_lt_self (by omega) (by omega)

/-- The numeric value of a decimal digit character. -/
def decDigitVal (c : Char) : Nat := c.toNat - 48

/-- The number a digit string denotes. -/
def decValue (cs : List Char) : Nat :=
  cs.foldl (fun a c => a * 10 + decDigitVal c) 0

/-- Every file or directory name directly under `parent`: the finite set
of names `n` for which `pathExistsPN fs parent n` can hold. -/
def occupiedNames (fs : FS) (parent : List String) : Finset String :=
  (fs.files.filterMap (fun e => if e.1.1 = parent then some e.1.2 else none)).toFinset ∪
  (fs.dirs.filterMap (fun d => if d.dropLast = parent then some (d.getLastD "") else none)).toFinset

/-! ## Concrete fixtures for the witnesses and counterexamples -/

/-- The scripted adapter of the spec's two-turn scenario: first response a
single `list_files` tool use, second response `end_turn` with the text
`Found 2 files.`. -/
def scenarioChat : Nat → List Message → ChatResponse := fun i _ =>
  if i = 0 then
    ⟨[ContentBlock.toolUse "toolu_01" "list_files" [("directory", "./proj")]], "tool_use"⟩
  else ⟨[ContentBlock.text "Found 2 files."], "end_turn"⟩

/-- The scripted registry of the scenario: every dispatch returns
`a.tsx\nb.tsx`. -/
def scenarioExec : Unit → String → InputMap → String × Unit :=
  fun s _ _ => ("a.tsx\nb.tsx", s)

/-- An adapter that always wants tools: used to exercise the iteration
ceiling. -/
def alwaysToolChat : Nat → List Message → ChatResponse :=
  fun _ _ => ⟨[ContentBlock.toolUse "t1" "read_file" [("file_path", "a.txt")]], "tool_use"⟩

/-- A registry stub returning an empty result. -/
def nullExec : Unit → String → InputMap → String × Unit := fun s _ _ => ("", s)

/-- An adapter whose first response carries the unrecognized stop reason
`max_tokens`. -/
def abortChat : Nat → List Message → ChatResponse := fun _ _ => ⟨[], "max_tokens"⟩

/-- The filesystem of the overwrite scenario: `card.tsx` and
`card.new.tsx` both exist in the current directory. -/
def fsScenario : FS :=
  ⟨[(([], "card.tsx"), "old content"), (([], "card.new.tsx"), "first copy")], []⟩

/-- A tool state with an empty filesystem and failing network oracles. -/
def stFail : ToolState :=
  ⟨⟨[], []⟩, fun _ => Except.error "Connection refused",
    fun _ => Except.error "Timeout"⟩

/-- A tool catalog with one property of declared type `number` — a type
the Gemini converter has no branch for. -/
def numberTool : ToolDescr :=
  ⟨"set_size", "Set the size.",
    ⟨[("count", ⟨some "number", some "How many."⟩)], ["count"]⟩⟩

/-- A tool whose schema mixes representable property types with one the
Gemini converter cannot represent. -/
def mixedTool : ToolDescr :=
  ⟨"resize", "Resize an image.",
    ⟨[("path", ⟨some "string", some "The path."⟩),
      ("width", ⟨some "integer", none⟩),
      ("force", ⟨some "boolean", none⟩),
      ("scale", ⟨some "number", none⟩)],
     ["path"]⟩⟩

/-! ## Helper lemmas: decimal rendering is injective -/

theorem decDigitVal_digitChar : ∀ d : Nat, d < 10 → decDigitVal (Nat.digitChar d) = d := by
  decide

theorem decValue_append (l : List Char) (c : Char) :
    decValue (l ++ [c]) = decValue l * 10 + decDigitVal c := by
  simp [decValue, List.foldl_append]

theorem decValue_decDigits (n : Nat) : decValue (decDigits n) = n := by
  induction n using Nat.strong_induction_on with
  | _ n ih =>
    rw [decDigits]
    by_cases h : n < 10
    · simp only [h, if_true]
      have : decValue [Nat.digitChar n] = decDigitVal (Nat.digitChar n) := by
        simp [decValue]
      rw [this, decDigitVal_digitChar n h]
    · simp only [h, if_false]
      rw [decValue_append, ih (n / 10) (Nat.div_lt_self (by omega) (by omega)),
        decDigitVal_digitChar (n % 10) (Nat.mod_lt n (by omega))]
      omega

theorem decDigits_injective : Function.Injective decDigits := by
  intro a b h
  have := congrArg decValue h
  rwa [decValue_decDigits, decValue_decDigits] at this

theorem toDigitsCore_eq_decDigits :
    ∀ (fuel n : Nat) (ds : List Char), n < fuel →
      Nat.toDigitsCore 10 fuel n ds = decDigits n ++ ds := by
  intro fuel
  induction fuel with
  | zero => intro n ds h; omega
  | succ fuel ih =>
    intro n ds _
    by_cases h10 : n / 10 = 0
    · have hn : n < 10 := by omega
      simp only [Nat.toDigitsCore, h10, if_true]
      rw [decDigits]
      simp [hn, Nat.mod_eq_of_lt hn]
    · have hn : ¬ n < 10 := by
        intro hc
        exact h10 (Nat.div_eq_of_lt hc)
      simp only [Nat.toDigitsCore, h10, if_false]
      rw [ih (n / 10) _ (by
        have : n / 10 < n := Nat.div_lt_self (by omega) (by omega)
        omega)]
      conv_rhs => rw [decDigits]
      simp [hn]

theorem natRepr_eq_decDigits (n : Nat) : Nat.repr n = (decDigits n).asString := by
  show (Nat.toDigits 10 n).asString = (decDigits n).asString
  rw [Nat.toDigits, toDigitsCore_eq_decDigits (n + 1) n [] (by omega), List.append_nil]

theorem natRepr_injective : Function.Injective Nat.repr := by
  intro a b h
  rw [natRepr_eq_decDigits, natRepr_eq_decDigits] at h
  exact decDigits_injective (List.asString_inj.mp h)

theorem string_append_left_cancel {c a b : String} (h : c ++ a = c ++ b) : a = b := by
  apply String.ext
  have := congrArg String.data h
  simp only [String.data_append] at this
  exact List.append_cancel_left this

theorem string_append_right_cancel {a b c : String} (h : a ++ c = b ++ c) : a = b := by
  apply String.ext
  have := congrArg String.data h
  simp only [String.data_append] at this
  exact List.append_cancel_right this

theorem numberedName_injective (stem suffix : String) :
    Function.Injective (numberedName stem suffix) := by
  intro a b h
  unfold numberedName at h
  have h1 : stem ++ ".new" ++ Nat.repr a = stem ++ ".new" ++ Nat.repr b :=
    string_append_right_cancel h
  exact natRepr_injective (string_append_left_cancel h1)

/-! ## Helper lemmas: the `.new` counter search terminates on a free name -/

theorem mem_occupied_of_pathExists {fs : FS} {parent : List String} {name : String}
    (h : pathExistsPN fs parent name = true) : name ∈ occupiedNames fs parent := by
  unfold pathExistsPN at h
  rcases Bool.or_eq_true_iff.mp h with hf | hd
  · unfold fileExists lookupFile at hf
    have hf2 : (fs.files.find? (fun e => decide (e.1 = (parent, name)))).isSome = true := by
      cases hx : fs.files.find? (fun e => decide (e.1 = (parent, name))) with
      | none => rw [hx] at hf; simp at hf
      | some v => simp
    obtain ⟨e, he, hpe⟩ := List.find?_isSome.mp hf2
    have hek : e.1 = (parent, name) := of_decide_eq_true hpe
    apply Finset.mem_union_left
    rw [List.mem_toFinset, List.mem_filterMap]
    refine ⟨e, he, ?_⟩
    rw [hek]
    simp
  · unfold dirExists at hd
    obtain ⟨d, hdm, hpd⟩ := List.any_eq_true.mp hd
    have hdk : d = parent ++ [name] := of_decide_eq_true hpd
    apply Finset.mem_union_right
    rw [List.mem_toFinset, List.mem_filterMap]
    refine ⟨d, hdm, ?_⟩
    rw [hdk]
    simp [List.dropLast_concat, List.getLastD_concat]

theorem occupied_card_le (fs : FS) (parent : List String) :
    (occupiedNames fs parent).card ≤ fs.files.length + fs.dirs.length := by
  unfold occupiedNames
  calc (_ ∪ _ : Finset String).card
      ≤ _ + _ := Finset.card_union_le _ _
    _ ≤ fs.files.length + fs.dirs.length := by
        gcongr
        · exact le_trans (List.toFinset_card_le _) (List.length_filterMap_le _ _)
        · exact le_trans (List.toFinset_card_le _) (List.length_filterMap_le _ _)

theorem exists_free_numbered (fs : FS) (parent : List String) (stem suffix : String)
    (start : Nat) :
    ∃ k, start ≤ k ∧ k < start + (fs.files.length + fs.dirs.length + 1) ∧
      pathExistsPN fs parent (numberedName stem suffix k) = false := by
  by_contra hc
  push_neg at hc
  have hall : ∀ i ∈ Finset.range (fs.files.length + fs.dirs.length + 1),
      numberedName stem suffix (start + i) ∈ occupiedNames fs parent := by
    intro i hi
    rw [Finset.mem_range] at hi
    apply mem_occupied_of_pathExists
    have := hc (start + i) (by omega) (by omega)
    revert this
    cases pathExistsPN fs parent (numberedName stem suffix (start + i)) <;> simp
  have hinj : Function.Injective (fun i : Nat => numberedName stem suffix (start + i)) := by
    intro a b hab
    have := numberedName_injective stem suffix hab
    omega
  have hsub : (Finset.range (fs.files.length + fs.dirs.length + 1)).image
      (fun i => numberedName stem suffix (start + i)) ⊆ occupiedNames fs parent := by
    intro x hx
    rw [Finset.mem_image] at hx
    obtain ⟨i, hi, rfl⟩ := hx
    exact hall i hi
  have hcard := Finset.card_le_card hsub
  rw [Finset.card_image_of_injective _ hinj, Finset.card_range] at hcard
  have := occupied_card_le fs parent
  omega

theorem findCounter_spec (fs : FS) (parent : List String) (stem suffix : String) :
    ∀ (fuel start : Nat),
      (∃ k, start ≤ k ∧ k < start + fuel ∧
        pathExistsPN fs parent (numberedName stem suffix k) = false) →
      start ≤ findCounter fs parent stem suffix start fuel ∧
      pathExistsPN fs parent
        (numberedName stem suffix (findCounter fs parent stem suffix start fuel)) = false ∧
      ∀ j, start ≤ j → j < findCounter fs parent stem suffix start fuel →
        pathExistsPN fs parent (numberedName stem suffix j) = true := by
  intro fuel
  induction fuel with
  | zero =>
    intro start hex
    obtain ⟨k, h1, h2, _⟩ := hex
    omega
  | succ fuel ih =>
    intro start hex
    have hstep : findCounter fs parent stem suffix start (fuel + 1) =
        if pathExistsPN fs parent (numberedName stem suffix start) = true then
          findCounter fs parent stem suffix (start + 1) fuel
        else start := rfl
    by_cases hocc : pathExistsPN fs parent (numberedName stem suffix start) = true
    · have heq : findCounter fs parent stem suffix start (fuel + 1) =
          findCounter fs parent stem suffix (start + 1) fuel := by
        rw [hstep, if_pos hocc]
      have hex' : ∃ k, start + 1 ≤ k ∧ k < (start + 1) + fuel ∧
          pathExistsPN fs parent (numberedName stem suffix k) = false := by
        obtain ⟨k, h1, h2, h3⟩ := hex
        have : k ≠ start := by
          intro hk
          rw [hk, hocc] at h3
          exact absurd h3 (by decide)
        exact ⟨k, by omega, by omega, h3⟩
      have h := ih (start + 1) hex'
      rw [heq]
      refine ⟨by omega, h.2.1, fun j hj1 hj2 => ?_⟩
      by_cases hj : j = start
      · rwa [hj]
      · exact h.2.2 j (by omega) hj2
    · have hfree : pathExistsPN fs parent (numberedName stem suffix start) = false := by
        revert hocc
        cases pathExistsPN fs parent (numberedName stem suffix start) <;> simp
      have heq : findCounter fs parent stem suffix start (fuel + 1) = start := by
        rw [hstep, if_neg hocc]
      rw [heq]
      exact ⟨le_refl _, hfree, fun j hj1 hj2 => absurd hj1 (by omega)⟩

theorem chooseWriteName_free (fs : FS) (parent : List String) (name : String) :
    pathExistsPN fs parent (chooseWriteName fs parent name) = false := by
  unfold chooseWriteName
  by_cases h1 : pathExistsPN fs parent name = true
  · rw [if_pos h1]
    by_cases h2 : pathExistsPN fs parent
        (newName (pySplitExt name).1 (pySplitExt name).2) = true
    · rw [if_pos h2]
      exact (findCounter_spec fs parent (pySplitExt name).1 (pySplitExt name).2
        (fs.files.length + fs.dirs.length + 1) 2
        (by
          obtain ⟨k, hk1, hk2, hk3⟩ := exists_free_numbered fs parent
            (pySplitExt name).1 (pySplitExt name).2 2
          exact ⟨k, hk1, hk2, hk3⟩)).2.1
    · rw [if_neg h2]
      revert h2
      cases pathExistsPN fs parent (newName (pySplitExt name).1 (pySplitExt name).2) <;> simp
  · rw [if_neg h1]
    revert h1
    cases pathExistsPN fs parent name <;> simp

/-! ## Helper lemmas: one step of the agent loop -/

theorem runLoop_zero {σ : Type} (chat : Nat → List Message → ChatResponse)
    (exec : σ → String → InputMap → String × σ) (verbose : Bool)
    (messages : List Message) (iteration calls : Nat) (s : σ) (log : List String) :
    runLoop chat exec verbose 0 messages iteration calls s log =
      ⟨"Agent reached maximum iterations without completing.",
        messages, iteration, calls, s, log⟩ := rfl

theorem runLoop_succ_tool_use {σ : Type} (chat : Nat → List Message → ChatResponse)
    (exec : σ → String → InputMap → String × σ) (verbose : Bool)
    (fuel : Nat) (messages : List Message) (iteration calls : Nat) (s : σ)
    (log : List String) (h : (chat calls messages).stop_reason = "tool_use") :
    runLoop chat exec verbose (fuel + 1) messages iteration calls s log =
      runLoop chat exec verbose fuel
        (messages ++
          [⟨"assistant", MessageContent.ofBlocks (chat calls messages).content⟩,
           ⟨"user", MessageContent.ofBlocks
             (runTools exec verbose s (chat calls messages).content).1⟩])
        (iteration + 1) (calls + 1)
        (runTools exec verbose s (chat calls messages).content).2.1
        ((if verbose then
            log ++ ["[Iteration " ++ Nat.repr (iteration + 1) ++ "] Thinking..."]
          else log) ++
          (runTools exec verbose s (chat calls messages).content).2.2) := by
  show (if (chat calls messages).stop_reason = "end_turn" then _
        else if (chat calls messages).stop_reason = "tool_use" then _ else _) = _
  rw [h, if_neg (by decide), if_pos rfl]

theorem runLoop_succ_end_turn {σ : Type} (chat : Nat → List Message → ChatResponse)
    (exec : σ → String → InputMap → String × σ) (verbose : Bool)
    (fuel : Nat) (messages : List Message) (iteration calls : Nat) (s : σ)
    (log : List String) (h : (chat calls messages).stop_reason = "end_turn") :
    runLoop chat exec verbose (fuel + 1) messages iteration calls s log =
      ⟨concatTexts (chat calls messages).content, messages, iteration + 1, calls + 1, s,
        if verbose then
          (log ++ ["[Iteration " ++ Nat.repr (iteration + 1) ++ "] Thinking..."]) ++
            ["AGENT COMPLETE"]
        else log⟩ := by
  show (if (chat calls messages).stop_reason = "end_turn" then _
        else if (chat calls messages).stop_reason = "tool_use" then _ else _) = _
  rw [h, if_pos rfl]
  by_cases hv : verbose = true
  · simp [hv]
  · have : verbose = false := by revert hv; cases verbose <;> simp
    simp [this]

theorem runLoop_succ_abort {σ : Type} (chat : Nat → List Message → ChatResponse)
    (exec : σ → String → InputMap → String × σ) (verbose : Bool)
    (fuel : Nat) (messages : List Message) (iteration calls : Nat) (s : σ)
    (log : List String) (h1 : (chat calls messages).stop_reason ≠ "end_turn")
    (h2 : (chat calls messages).stop_reason ≠ "tool_use") :
    runLoop chat exec verbose (fuel + 1) messages iteration calls s log =
      ⟨"Agent stopped unexpectedly: " ++ (chat calls messages).stop_reason,
        messages, iteration + 1, calls + 1, s,
        if verbose then
          log ++ ["[Iteration " ++ Nat.repr (iteration + 1) ++ "] Thinking..."]
        else log⟩ := by
  show (if (chat calls messages).stop_reason = "end_turn" then _
        else if (chat calls messages).stop_reason = "tool_use" then _ else _) = _
  rw [if_neg h1, if_neg h2]

theorem runLoop_all_tool_use {σ : Type} (chat : Nat → List Message → ChatResponse)
    (exec : σ → String → InputMap → String × σ) (verbose : Bool)
    (h : ∀ i ms, (chat i ms).stop_reason = "tool_use") :
    ∀ (fuel : Nat) (messages : List Message) (iteration calls : Nat) (s : σ)
      (log : List String),
      (runLoop chat exec verbose fuel messages iteration calls s log).result =
        "Agent reached maximum iterations without completing." ∧
      (runLoop chat exec verbose fuel messages iteration calls s log).iteration =
        iteration + fuel ∧
      (runLoop chat exec verbose fuel messages iteration calls s log).chatCalls =
        calls + fuel := by
  intro fuel
  induction fuel with
  | zero => intro messages iteration calls s log; rw [runLoop_zero]; exact ⟨rfl, rfl, rfl⟩
  | succ fuel ih =>
    intro messages iteration calls s log
    rw [runLoop_succ_tool_use chat exec verbose fuel messages iteration calls s log
      (h calls messages)]
    refine ⟨(ih _ _ _ _ _).1, ?_, ?_⟩
    · rw [(ih _ _ _ _ _).2.1]; omega
    · rw [(ih _ _ _ _ _).2.2]; omega

/-! ## Helper lemmas: tool results answer tool requests one for one -/

theorem runTools_correspond {σ : Type} (exec : σ → String → InputMap → String × σ)
    (verbose : Bool) :
    ∀ (blocks : List ContentBlock) (s : σ),
      resultsCorrespond blocks (runTools exec verbose s blocks).1 := by
  intro blocks
  induction blocks with
  | nil => intro s; exact ⟨rfl, by intro b hb; simp [runTools] at hb⟩
  | cons b rest ih =>
    intro s
    cases b with
    | text t =>
      have h := ih s
      refine ⟨?_, h.2⟩
      rw [show (runTools exec verbose s (ContentBlock.text t :: rest)).1 =
        (runTools exec verbose s rest).1 from rfl]
      rw [h.1]
      simp [useSkeleton]
    | toolUse i n inp =>
      have h := ih (exec s n inp).2
      constructor
      · rw [show (runTools exec verbose s (ContentBlock.toolUse i n inp :: rest)).1 =
          ContentBlock.toolResult i n (exec s n inp).1 ::
            (runTools exec verbose (exec s n inp).2 rest).1 from rfl]
        simp only [List.filterMap_cons]
        rw [show resultSkeleton (ContentBlock.toolResult i n (exec s n inp).1) =
          some (i, n) from rfl]
        rw [show useSkeleton (ContentBlock.toolUse i n inp) = some (i, n) from rfl]
        rw [h.1]
      · intro b hb
        rw [show (runTools exec verbose s (ContentBlock.toolUse i n inp :: rest)).1 =
          ContentBlock.toolResult i n (exec s n inp).1 ::
            (runTools exec verbose (exec s n inp).2 rest).1 from rfl] at hb
        rcases List.mem_cons.mp hb with hb | hb
        · rw [hb]; rfl
        · exact h.2 b hb
    | toolResult a b2 c =>
      have h := ih s
      refine ⟨?_, h.2⟩
      rw [show (runTools exec verbose s (ContentBlock.toolResult a b2 c :: rest)).1 =
        (runTools exec verbose s rest).1 from rfl]
      rw [h.1]
      simp [useSkeleton]

theorem runLoop_appends_paired {σ : Type} (chat : Nat → List Message → ChatResponse)
    (exec : σ → String → InputMap → String × σ) (verbose : Bool) :
    ∀ (fuel : Nat) (messages : List Message) (iteration calls : Nat) (s : σ)
      (log : List String),
      ∃ t, (runLoop chat exec verbose fuel messages iteration calls s log).messages =
        messages ++ t ∧ PairedTurns t := by
  intro fuel
  induction fuel with
  | zero =>
    intro messages iteration calls s log
    exact ⟨[], by rw [runLoop_zero]; simp, PairedTurns.nil⟩
  | succ fuel ih =>
    intro messages iteration calls s log
    by_cases h1 : (chat calls messages).stop_reason = "end_turn"
    · refine ⟨[], ?_, PairedTurns.nil⟩
      rw [runLoop_succ_end_turn chat exec verbose fuel messages iteration calls s log h1]
      simp
    · by_cases h2 : (chat calls messages).stop_reason = "tool_use"
      · rw [runLoop_succ_tool_use chat exec verbose fuel messages iteration calls s log h2]
        obtain ⟨t, ht, hp⟩ := ih
          (messages ++
            [⟨"assistant", MessageContent.ofBlocks (chat calls messages).content⟩,
             ⟨"user", MessageContent.ofBlocks
               (runTools exec verbose s (chat calls messages).content).1⟩])
          (iteration + 1) (calls + 1)
          (runTools exec verbose s (chat calls messages).content).2.1
          ((if verbose then
              log ++ ["[Iteration " ++ Nat.repr (iteration + 1) ++ "] Thinking..."]
            else log) ++
            (runTools exec verbose s (chat calls messages).content).2.2)
        refine ⟨⟨"assistant", MessageContent.ofBlocks (chat calls messages).content⟩ ::
          ⟨"user", MessageContent.ofBlocks
            (runTools exec verbose s (chat calls messages).content).1⟩ :: t, ?_, ?_⟩
        · rw [ht]; simp
        · exact PairedTurns.cons _ _ _
            (runTools_correspond exec verbose (chat calls messages).content s) hp
      · refine ⟨[], ?_, PairedTurns.nil⟩
        rw [runLoop_succ_abort chat exec verbose fuel messages iteration calls s log h1 h2]
        simp

/-! ## Helper lemmas: the verbose flag only adds log lines -/

theorem runTools_verbose_indep {σ : Type} (exec : σ → String → InputMap → String × σ)
    (v v' : Bool) :
    ∀ (blocks : List ContentBlock) (s : σ),
      (runTools exec v s blocks).1 = (runTools exec v' s blocks).1 ∧
      (runTools exec v s blocks).2.1 = (runTools exec v' s blocks).2.1 := by
  intro blocks
  induction blocks with
  | nil => intro s; exact ⟨rfl, rfl⟩
  | cons b rest ih =>
    intro s
    cases b with
    | text t => exact ih s
    | toolUse i n inp =>
      have h := ih (exec s n inp).2
      exact ⟨by
        rw [show (runTools exec v s (ContentBlock.toolUse i n inp :: rest)).1 =
          ContentBlock.toolResult i n (exec s n inp).1 ::
            (runTools exec v (exec s n inp).2 rest).1 from rfl]
        rw [show (runTools exec v' s (ContentBlock.toolUse i n inp :: rest)).1 =
          ContentBlock.toolResult i n (exec s n inp).1 ::
            (runTools exec v' (exec s n inp).2 rest).1 from rfl]
        rw [h.1], h.2⟩
    | toolResult a b2 c => exact ih s

theorem runLoop_verbose_indep {σ : Type} (chat : Nat → List Message → ChatResponse)
    (exec : σ → String → InputMap → String × σ) (v v' : Bool) :
    ∀ (fuel : Nat) (messages : List Message) (iteration calls : Nat) (s : σ)
      (log log' : List String),
      (runLoop chat exec v fuel messages iteration calls s log).result =
        (runLoop chat exec v' fuel messages iteration calls s log').result ∧
      (runLoop chat exec v fuel messages iteration calls s log).messages =
        (runLoop chat exec v' fuel messages iteration calls s log').messages ∧
      (runLoop chat exec v fuel messages iteration calls s log).iteration =
        (runLoop chat exec v' fuel messages iteration calls s log').iteration ∧
      (runLoop chat exec v fuel messages iteration calls s log).chatCalls =
        (runLoop chat exec v' fuel messages iteration calls s log').chatCalls ∧
      (runLoop chat exec v fuel messages iteration calls s log).state =
        (runLoop chat exec v' fuel messages iteration calls s log').state := by
  intro fuel
  induction fuel with
  | zero =>
    intro messages iteration calls s log log'
    rw [runLoop_zero, runLoop_zero]
    exact ⟨rfl, rfl, rfl, rfl, rfl⟩
  | succ fuel ih =>
    intro messages iteration calls s log log'
    by_cases h1 : (chat calls messages).stop_reason = "end_turn"
    · rw [runLoop_succ_end_turn chat exec v fuel messages iteration calls s log h1,
        runLoop_succ_end_turn chat exec v' fuel messages iteration calls s log' h1]
      exact ⟨rfl, rfl, rfl, rfl, rfl⟩
    · by_cases h2 : (chat calls messages).stop_reason = "tool_use"
      · rw [runLoop_succ_tool_use chat exec v fuel messages iteration calls s log h2,
          runLoop_succ_tool_use chat exec v' fuel messages iteration calls s log' h2]
        have ht := runTools_verbose_indep exec v v' (chat calls messages).content s
        rw [ht.1, ht.2]
        exact ih _ _ _ _ _ _
      · rw [runLoop_succ_abort chat exec v fuel messages iteration calls s log h1 h2,
          runLoop_succ_abort chat exec v' fuel messages iteration calls s log' h1 h2]
        exact ⟨rfl, rfl, rfl, rfl, rfl⟩

/-! ## The claims -/

/-- C1: for every adapter whose responses never carry `stop_reason =
end_turn` and never carry an unrecognized stop reason (so every response
is `tool_use`), `run_agent` terminates after exactly `max_iterations = 15`
iterations with one chat call per iteration, and returns the distinct
exhaustion message instead of a model answer — it never loops
indefinitely. -/
theorem run_agent_exhausts_at_ceiling {σ : Type} (chat : Nat → List Message → ChatResponse)
    (exec : σ → String → InputMap → String × σ)
    (user_message project_path : String) (verbose : Bool) (s : σ)
    (h1 : ∀ i ms, (chat i ms).stop_reason ≠ "end_turn")
    (h2 : ∀ i ms, (chat i ms).stop_reason = "end_turn" ∨ (chat i ms).stop_reason = "tool_use") :
    (run_agent chat exec user_message project_path verbose s).result =
      "Agent reached maximum iterations without completing." ∧
    (run_agent chat exec user_message project_path verbose s).iteration = 15 ∧
    (run_agent chat exec user_message project_path verbose s).chatCalls = 15 := by
  have h : ∀ i ms, (chat i ms).stop_reason = "tool_use" := by
    intro i ms
    rcases h2 i ms with hh | hh
    · exact absurd hh (h1 i ms)
    · exact hh
  unfold run_agent
  have := runLoop_all_tool_use chat exec verbose h 15
    [seedMessage user_message project_path] 0 0 s
    (headerLog user_message project_path verbose)
  exact ⟨this.1, this.2.1, this.2.2⟩

/-- Witness for C1: a scripted adapter that always requests a tool runs
out at exactly 15 iterations and 15 chat calls. -/
theorem run_agent_exhausts_at_ceiling_witness :
    (run_agent alwaysToolChat nullExec "t" "." false ()).result =
      "Agent reached maximum iterations without completing." ∧
    (run_agent alwaysToolChat nullExec "t" "." false ()).iteration = 15 ∧
    (run_agent alwaysToolChat nullExec "t" "." false ()).chatCalls = 15 :=
  run_agent_exhausts_at_ceiling alwaysToolChat nullExec "t" "." false ()
    (fun _ _ => (by decide : ("tool_use" : String) ≠ "end_turn"))
    (fun _ _ => Or.inr rfl)

/-- C2: in every run, whatever the adapter and the tools do, the
conversation after the seed message consists exactly of assistant/user
pairs in which the user message holds one `tool_result` block per
`tool_use` block of the preceding assistant content, carrying the
originating block's `id` (and name) in the same order, and holds nothing
else; the pair is complete before the loop recurses into the next chat
call, and no `tool_result` is ever appended without its originating
`tool_use`. -/
theorem run_agent_tool_results_paired {σ : Type} (chat : Nat → List Message → ChatResponse)
    (exec : σ → String → InputMap → String × σ)
    (user_message project_path : String) (verbose : Bool) (s : σ) :
    ∃ t, (run_agent chat exec user_message project_path verbose s).messages =
      seedMessage user_message project_path :: t ∧ PairedTurns t := by
  unfold run_agent
  obtain ⟨t, ht, hp⟩ := runLoop_appends_paired chat exec verbose 15
    [seedMessage user_message project_path] 0 0 s
    (headerLog user_message project_path verbose)
  exact ⟨t, by rw [ht]; rfl, hp⟩

/-- C4: when a chat call returns `stop_reason = end_turn`, `run_agent`
returns the concatenation, in insertion order, of the text of the
`TextBlock`s of that response; and on the spec's scripted two-turn
scenario (one `list_files` tool use answered by `a.tsx\nb.tsx`, then
`end_turn` with `Found 2 files.`) the run returns exactly `Found 2
files.` after 2 iterations. -/
theorem run_agent_end_turn_concatenates_texts :
    (∀ (σ : Type) (chat : Nat → List Message → ChatResponse)
       (exec : σ → String → InputMap → String × σ) (verbose : Bool)
       (fuel : Nat) (messages : List Message) (iteration calls : Nat) (s : σ)
       (log : List String),
       (chat calls messages).stop_reason = "end_turn" →
       (runLoop chat exec verbose (fuel + 1) messages iteration calls s log).result =
         concatTexts (chat calls messages).content) ∧
    ((run_agent scenarioChat scenarioExec "list project files" "./proj" false ()).result =
       "Found 2 files." ∧
     (run_agent scenarioChat scenarioExec "list project files" "./proj" false ()).iteration
       = 2) := by
  constructor
  · intro σ chat exec verbose fuel messages iteration calls s log h
    rw [runLoop_succ_end_turn chat exec verbose fuel messages iteration calls s log h]
  · exact ⟨rfl, rfl⟩

/-- Witness for C4: the general conjunct applied to a one-response
scripted adapter that immediately ends the turn. -/
theorem run_agent_end_turn_concatenates_texts_witness :
    (runLoop (fun _ _ => ⟨[ContentBlock.text "Done."], "end_turn"⟩) nullExec
      false 1 [] 0 0 () []).result = concatTexts [ContentBlock.text "Done."] :=
  run_agent_end_turn_concatenates_texts.1 Unit
    (fun _ _ => ⟨[ContentBlock.text "Done."], "end_turn"⟩) nullExec false 0 [] 0 0 () [] rfl

/-- C5: when a chat call returns a stop reason that is neither `end_turn`
nor `tool_use`, the loop returns at once the diagnostic string carrying
the literal unexpected value: no message is appended for that turn, no
tool is executed (the tool-world state is unchanged), and no further chat
call is made (exactly the one call that produced the value is counted) —
a terminal outcome, not retried. -/
theorem runLoop_unexpected_stop_aborts {σ : Type} (chat : Nat → List Message → ChatResponse)
    (exec : σ → String → InputMap → String × σ) (verbose : Bool)
    (fuel : Nat) (messages : List Message) (iteration calls : Nat) (s : σ)
    (log : List String) (h1 : (chat calls messages).stop_reason ≠ "end_turn")
    (h2 : (chat calls messages).stop_reason ≠ "tool_use") :
    (runLoop chat exec verbose (fuel + 1) messages iteration calls s log).result =
      "Agent stopped unexpectedly: " ++ (chat calls messages).stop_reason ∧
    (runLoop chat exec verbose (fuel + 1) messages iteration calls s log).messages =
      messages ∧
    (runLoop chat exec verbose (fuel + 1) messages iteration calls s log).chatCalls =
      calls + 1 ∧
    (runLoop chat exec verbose (fuel + 1) messages iteration calls s log).state = s := by
  rw [runLoop_succ_abort chat exec verbose fuel messages iteration calls s log h1 h2]
  exact ⟨rfl, rfl, rfl, rfl⟩

/-- Witness for C5: an adapter answering `max_tokens` aborts the loop at
once with the literal value in the diagnostic. -/
theorem runLoop_unexpected_stop_aborts_witness :
    (runLoop abortChat nullExec false 1 [] 0 0 () []).result =
      "Agent stopped unexpectedly: max_tokens" ∧
    (runLoop abortChat nullExec false 1 [] 0 0 () []).messages = [] ∧
    (runLoop abortChat nullExec false 1 [] 0 0 () []).chatCalls = 1 ∧
    (runLoop abortChat nullExec false 1 [] 0 0 () []).state = () := by
  have h := runLoop_unexpected_stop_aborts abortChat nullExec false 0 [] 0 0 () []
    (by decide) (by decide)
  exact ⟨h.1.trans rfl, h.2.1, h.2.2.1, h.2.2.2⟩

/-- C9: the verbose flag is observability only: two runs differing only in
`verbose` return the same result string, the same conversation, the same
iteration and chat-call counts and the same final tool-world state — the
telemetry never influences control flow or the outcome. -/
theorem run_agent_verbose_noninterference {σ : Type}
    (chat : Nat → List Message → ChatResponse)
    (exec : σ → String → InputMap → String × σ)
    (user_message project_path : String) (s : σ) :
    (run_agent chat exec user_message project_path true s).result =
      (run_agent chat exec user_message project_path false s).result ∧
    (run_agent chat exec user_message project_path true s).messages =
      (run_agent chat exec user_message project_path false s).messages ∧
    (run_agent chat exec user_message project_path true s).iteration =
      (run_agent chat exec user_message project_path false s).iteration ∧
    (run_agent chat exec user_message project_path true s).chatCalls =
      (run_agent chat exec user_message project_path false s).chatCalls ∧
    (run_agent chat exec user_message project_path true s).state =
      (run_agent chat exec user_message project_path false s).state := by
  unfold run_agent
  exact runLoop_verbose_indep chat exec true false 15
    [seedMessage user_message project_path] 0 0 s
    (headerLog user_message project_path true)
    (headerLog user_message project_path false)

/-- The filesystem after a `write_file`, by computation. -/
theorem write_file_fst (fs : FS) (file_path content : String) :
    (write_file fs file_path content).1 =
      ⟨(((splitPath file_path).dropLast,
          chooseWriteName fs (splitPath file_path).dropLast
            ((splitPath file_path).getLastD "")),
         content) :: fs.files,
        fs.dirs ++ (splitPath file_path).dropLast.inits⟩ := rfl

/-- The result string of a `write_file`, by computation. -/
theorem write_file_snd (fs : FS) (file_path content : String) :
    (write_file fs file_path content).2 =
      "Successfully wrote to " ++
        renderPath ((splitPath file_path).dropLast ++
          [chooseWriteName fs (splitPath file_path).dropLast
            ((splitPath file_path).getLastD "")]) := rfl

/-- Looking a key up past a non-matching head entry. -/
theorem lookupFile_cons_ne (entry : (List String × String) × String)
    (files : List ((List String × String) × String)) (dirs : List (List String))
    (key : List String × String) (h : entry.1 ≠ key) :
    lookupFile ⟨entry :: files, dirs⟩ key = lookupFile ⟨files, dirs⟩ key := by
  unfold lookupFile
  rw [List.find?_cons_of_neg]
  intro hc
  exact h (of_decide_eq_true hc)

/-- Looking up the key of the head entry. -/
theorem lookupFile_cons_self (entry : (List String × String) × String)
    (files : List ((List String × String) × String)) (dirs : List (List String)) :
    lookupFile ⟨entry :: files, dirs⟩ entry.1 = some entry.2 := by
  unfold lookupFile
  rw [List.find?_cons_of_pos]
  · rfl
  · simp

/-- When the requested name is free, no renaming happens. -/
theorem chooseWriteName_of_not_exists (fs : FS) (parent : List String) (name : String)
    (h : pathExistsPN fs parent name = false) :
    chooseWriteName fs parent name = name := by
  unfold chooseWriteName
  rw [if_neg]
  intro hc
  rw [h] at hc
  exact Bool.noConfusion hc

/-- When the requested name is occupied, the loop of `tools.py` lines
52-64 picks `stem.new`, or the numbered candidate the counter search
lands on. -/
theorem chooseWriteName_of_exists (fs : FS) (parent : List String) (name : String)
    (hex : pathExistsPN fs parent name = true) :
    chooseWriteName fs parent name =
      if pathExistsPN fs parent
          (newName (pySplitExt name).1 (pySplitExt name).2) = true then
        numberedName (pySplitExt name).1 (pySplitExt name).2
          (findCounter fs parent (pySplitExt name).1 (pySplitExt name).2 2
            (fs.files.length + fs.dirs.length + 1))
      else newName (pySplitExt name).1 (pySplitExt name).2 := by
  unfold chooseWriteName
  rw [if_pos hex]

/-- C3: invoking `write_file` on an occupied path `P` never modifies `P`:
the chosen target name is never an occupied name (so `P`'s content is
untouched), the content lands exactly at the target, the result string
reports the path actually written, and the target is the first free
candidate — `stem.new` when free, otherwise the first free `stem.newK`
with `K ≥ 2`, every smaller candidate being occupied. -/
theorem write_file_never_overwrites (fs : FS) (file_path content : String)
    (parent : List String) (name stem suffix : String)
    (hparent : parent = (splitPath file_path).dropLast)
    (hname : name = (splitPath file_path).getLastD "")
    (hstem : stem = (pySplitExt name).1)
    (hsuffix : suffix = (pySplitExt name).2)
    (hex : pathExistsPN fs parent name = true) :
    pathExistsPN fs parent (chooseWriteName fs parent name) = false ∧
    lookupFile (write_file fs file_path content).1 (parent, name) =
      lookupFile fs (parent, name) ∧
    lookupFile (write_file fs file_path content).1
      (parent, chooseWriteName fs parent name) = some content ∧
    (write_file fs file_path content).2 =
      "Successfully wrote to " ++
        renderPath (parent ++ [chooseWriteName fs parent name]) ∧
    (pathExistsPN fs parent (newName stem suffix) = false →
      chooseWriteName fs parent name = newName stem suffix) ∧
    (pathExistsPN fs parent (newName stem suffix) = true →
      ∃ k, 2 ≤ k ∧ chooseWriteName fs parent name = numberedName stem suffix k ∧
        ∀ j, 2 ≤ j → j < k →
          pathExistsPN fs parent (numberedName stem suffix j) = true) := by
  subst hparent
  subst hname
  subst hstem
  subst hsuffix
  have hfree := chooseWriteName_free fs (splitPath file_path).dropLast
    ((splitPath file_path).getLastD "")
  have hne : chooseWriteName fs (splitPath file_path).dropLast
      ((splitPath file_path).getLastD "") ≠ (splitPath file_path).getLastD "" := by
    intro hc
    rw [hc, hex] at hfree
    exact Bool.noConfusion hfree
  refine ⟨hfree, ?_, ?_, ?_, ?_, ?_⟩
  · rw [write_file_fst, lookupFile_cons_ne _ _ _ _ (fun hc => hne (congrArg Prod.snd hc))]
    rfl
  · rw [write_file_fst]
    exact lookupFile_cons_self _ _ _
  · rw [write_file_snd]
  · intro hnew
    rw [chooseWriteName_of_exists fs _ _ hex, if_neg]
    intro hc
    rw [hnew] at hc
    exact Bool.noConfusion hc
  · intro hnew
    refine ⟨findCounter fs (splitPath file_path).dropLast
        (pySplitExt ((splitPath file_path).getLastD "")).1
        (pySplitExt ((splitPath file_path).getLastD "")).2 2
        (fs.files.length + fs.dirs.length + 1), ?_, ?_, ?_⟩
    · exact (findCounter_spec fs (splitPath file_path).dropLast _ _
        (fs.files.length + fs.dirs.length + 1) 2
        (exists_free_numbered fs (splitPath file_path).dropLast _ _ 2)).1
    · rw [chooseWriteName_of_exists fs _ _ hex, if_pos hnew]
    · exact (findCounter_spec fs (splitPath file_path).dropLast _ _
        (fs.files.length + fs.dirs.length + 1) 2
        (exists_free_numbered fs (splitPath file_path).dropLast _ _ 2)).2.2

/-- Witness for C3 at the spec's scenario: `card.tsx` and `card.new.tsx`
both exist, so the write goes to `card.new2.tsx` and `card.tsx` keeps its
content. -/
theorem write_file_never_overwrites_witness :
    chooseWriteName fsScenario [] "card.tsx" = "card.new2.tsx" ∧
    lookupFile (write_file fsScenario "card.tsx" "new body").1 ([], "card.tsx") =
      some "old content" ∧
    (write_file fsScenario "card.tsx" "new body").2 =
      "Successfully wrote to card.new2.tsx" := by
  have h := write_file_never_overwrites fsScenario "card.tsx" "new body"
    [] "card.tsx" "card" ".tsx" (by decide) (by decide) (by decide) (by decide) (by decide)
  exact ⟨by decide, h.2.1.trans (by decide), h.2.2.2.1.trans (by decide)⟩

/-- C10: writing to a path that does not exist, under parent directories
that do not all exist, creates the missing ancestors, writes the content
at the requested name (no renaming) and reports success — a missing
directory never makes `write_file` fail. -/
theorem write_file_creates_parent_dirs (fs : FS) (file_path content : String)
    (parent : List String) (name : String)
    (hparent : parent = (splitPath file_path).dropLast)
    (hname : name = (splitPath file_path).getLastD "")
    (hmiss : parent ∉ fs.dirs)
    (hne : pathExistsPN fs parent name = false) :
    chooseWriteName fs parent name = name ∧
    lookupFile (write_file fs file_path content).1 (parent, name) = some content ∧
    (∀ pre, pre ∈ parent.inits → pre ∈ (write_file fs file_path content).1.dirs) ∧
    (write_file fs file_path content).2 =
      "Successfully wrote to " ++ renderPath (parent ++ [name]) := by
  subst hparent
  subst hname
  have hch := chooseWriteName_of_not_exists fs (splitPath file_path).dropLast
    ((splitPath file_path).getLastD "") hne
  refine ⟨hch, ?_, ?_, ?_⟩
  · rw [write_file_fst, hch]
    exact lookupFile_cons_self _ _ _
  · intro pre hpre
    rw [write_file_fst]
    exact List.mem_append_right _ hpre
  · rw [write_file_snd, hch]

/-- Witness for C10: writing `src/ui/card.tsx` on an empty filesystem
creates `src` and `src/ui` and lands the content at the requested path. -/
theorem write_file_creates_parent_dirs_witness :
    chooseWriteName ⟨[], []⟩ ["src", "ui"] "card.tsx" = "card.tsx" ∧
    lookupFile (write_file ⟨[], []⟩ "src/ui/card.tsx" "body").1
      (["src", "ui"], "card.tsx") = some "body" ∧
    (["src"] ∈ (write_file ⟨[], []⟩ "src/ui/card.tsx" "body").1.dirs ∧
     ["src", "ui"] ∈ (write_file ⟨[], []⟩ "src/ui/card.tsx" "body").1.dirs) ∧
    (write_file ⟨[], []⟩ "src/ui/card.tsx" "body").2 =
      "Successfully wrote to src/ui/card.tsx" := by
  have h := write_file_creates_parent_dirs ⟨[], []⟩ "src/ui/card.tsx" "body"
    ["src", "ui"] "card.tsx" (by decide) (by decide) (by decide) (by decide)
  exact ⟨h.1, h.2.1,
    ⟨h.2.2.1 ["src"] (by decide), h.2.2.1 ["src", "ui"] (by decide)⟩,
    h.2.2.2.trans (by decide)⟩

/-- C6: tool-level failures never abort the run. Dispatching a name that
is none of the five registered tools returns the explicit
`Unknown tool: <name>` string as an ordinary tool result (not an
exception); `read_file` on a missing path returns its descriptive error
string; and a network failure in `search_web` or `fetch_url` (any
exception from the HTTP layer) is returned as a descriptive error string.
Every such string flows back to the model as a `tool_result` block by the
loop's pairing (claim C2). -/
theorem execute_tool_errors_recovered (st : ToolState) (name : String)
    (input : InputMap) :
    (name ∉ (["read_file", "list_files", "write_file", "search_web", "fetch_url"] :
        List String) →
      execute_tool st name input = Except.ok ("Unknown tool: " ++ name, st)) ∧
    (∀ fp, lookupArg input "file_path" = some fp →
      pathExistsPN st.fs (splitPath fp).dropLast ((splitPath fp).getLastD "") = false →
      execute_tool st "read_file" input =
        Except.ok ("Error: File " ++ fp ++ " not found", st)) ∧
    (∀ q e, lookupArg input "query" = some q → st.web q = Except.error e →
      execute_tool st "search_web" input = Except.ok ("Search error: " ++ e, st)) ∧
    (∀ u e, lookupArg input "url" = some u → st.net u = Except.error e →
      execute_tool st "fetch_url" input = Except.ok ("Fetch error: " ++ e, st)) := by
  refine ⟨?_, ?_, ?_, ?_⟩
  · intro h
    simp only [List.mem_cons, List.not_mem_nil, or_false, not_or] at h
    unfold execute_tool
    rw [if_neg h.1, if_neg h.2.1, if_neg h.2.2.1, if_neg h.2.2.2.1, if_neg h.2.2.2.2]
  · intro fp hfp hne
    unfold execute_tool
    rw [if_pos rfl, hfp]
    show Except.ok (read_file st.fs fp, st) = _
    unfold read_file
    show Except.ok
      ((if pathExistsPN st.fs (splitPath fp).dropLast ((splitPath fp).getLastD "") = false
        then "Error: File " ++ fp ++ " not found" else _), st) = _
    rw [if_pos hne]
  · intro q e hq hweb
    unfold execute_tool
    rw [if_neg (by decide), if_neg (by decide), if_neg (by decide), if_pos rfl, hq]
    show Except.ok (search_web st.web q, st) = _
    unfold search_web
    rw [hweb]
  · intro u e hu hnet
    unfold execute_tool
    rw [if_neg (by decide), if_neg (by decide), if_neg (by decide), if_neg (by decide),
      if_pos rfl, hu]
    show Except.ok (fetch_url st.net u, st) = _
    unfold fetch_url
    rw [hnet]

/-- Witness for C6: a hallucinated tool name, a missing file and failing
network oracles all come back as ordinary result strings. -/
theorem execute_tool_errors_recovered_witness :
    execute_tool stFail "imagine_tool"
      [("file_path", "nope.txt"), ("query", "q"), ("url", "u")] =
      Except.ok ("Unknown tool: imagine_tool", stFail) ∧
    execute_tool stFail "read_file"
      [("file_path", "nope.txt"), ("query", "q"), ("url", "u")] =
      Except.ok ("Error: File nope.txt not found", stFail) ∧
    execute_tool stFail "search_web"
      [("file_path", "nope.txt"), ("query", "q"), ("url", "u")] =
      Except.ok ("Search error: Connection refused", stFail) ∧
    execute_tool stFail "fetch_url"
      [("file_path", "nope.txt"), ("query", "q"), ("url", "u")] =
      Except.ok ("Fetch error: Timeout", stFail) := by
  have h := execute_tool_errors_recovered stFail "imagine_tool"
    [("file_path", "nope.txt"), ("query", "q"), ("url", "u")]
  exact ⟨h.1 (by decide),
    h.2.1 "nope.txt" rfl (by decide),
    h.2.2.1 "q" "Connection refused" rfl rfl,
    h.2.2.2 "u" "Timeout" rfl rfl⟩

/-- In an association list whose keys are distinct, a key determines its
value. -/
theorem assoc_unique {β : Type} :
    ∀ (l : List (String × β)), (l.map Prod.fst).Nodup →
      ∀ (k : String) (v1 v2 : β), (k, v1) ∈ l → (k, v2) ∈ l → v1 = v2 := by
  intro l
  induction l with
  | nil => intro _ k v1 v2 h1 _; exact absurd h1 (List.not_mem_nil _)
  | cons a t ih =>
    intro hnd k v1 v2 h1 h2
    rw [List.map_cons, List.nodup_cons] at hnd
    rcases List.mem_cons.mp h1 with h1 | h1 <;> rcases List.mem_cons.mp h2 with h2 | h2
    · rw [← h2] at h1
      exact congrArg Prod.snd h1
    · exfalso
      apply hnd.1
      rw [show a.1 = k from (congrArg Prod.fst h1).symm]
      exact List.mem_map_of_mem Prod.fst h2
    · exfalso
      apply hnd.1
      rw [show a.1 = k from (congrArg Prod.fst h2).symm]
      exact List.mem_map_of_mem Prod.fst h1
    · exact ih hnd.2 k v1 v2 h1 h2

/-- C7 counterexample: a property declared with type `number` is not
re-expressed as an opaque string schema — it is omitted from the converted
declaration altogether (the `required` list still names it), refuting the
claim's graceful-degradation behavior at this input. -/
theorem gemini_number_property_omitted :
    convert_tools_to_gemini [numberTool] =
      [⟨"set_size", "Set the size.", [], ["count"]⟩] ∧
    ¬ ∃ g : GSchema, ("count", g) ∈
      ((convert_tools_to_gemini [numberTool]).headD ⟨"", "", [], []⟩).paramProperties := by
  refine ⟨rfl, ?_⟩
  intro h
  obtain ⟨g, hg⟩ := h
  exact List.not_mem_nil _ hg

/-- C7 amended: the Gemini conversion yields one declaration per tool,
keeping name, description and the `required` list verbatim; a property
whose declared type (defaulted to `string`) upper-cases to `STRING`,
`INTEGER` or `BOOLEAN` appears in the converted properties with the
matching Gemini type and its description; a property with any other
declared type is omitted from the converted properties rather than being
retyped as an opaque string. -/
theorem gemini_conversion_characterization (tools : List ToolDescr)
    (hnd : ∀ tool ∈ tools, (tool.input_schema.properties.map Prod.fst).Nodup) :
    (convert_tools_to_gemini tools).length = tools.length ∧
    ∀ tool ∈ tools, ∃ g ∈ convert_tools_to_gemini tools,
      g.name = tool.name ∧ g.description = tool.description ∧
      g.required = tool.input_schema.required ∧
      ∀ pname pdef, (pname, pdef) ∈ tool.input_schema.properties →
        (pyUpper (pdef.type?.getD "string") = "STRING" →
          (pname, ⟨GType.STRING, pdef.descr?.getD ""⟩) ∈ g.paramProperties) ∧
        (pyUpper (pdef.type?.getD "string") = "INTEGER" →
          (pname, ⟨GType.INTEGER, pdef.descr?.getD ""⟩) ∈ g.paramProperties) ∧
        (pyUpper (pdef.type?.getD "string") = "BOOLEAN" →
          (pname, ⟨GType.BOOLEAN, pdef.descr?.getD ""⟩) ∈ g.paramProperties) ∧
        (pyUpper (pdef.type?.getD "string") ≠ "STRING" →
          pyUpper (pdef.type?.getD "string") ≠ "INTEGER" →
          pyUpper (pdef.type?.getD "string") ≠ "BOOLEAN" →
          ∀ gs : GSchema, (pname, gs) ∉ g.paramProperties) := by
  constructor
  · unfold convert_tools_to_gemini
    exact List.length_map _ _
  · intro tool htool
    refine ⟨⟨tool.name, tool.description,
      tool.input_schema.properties.filterMap
        (fun p => (convertPropGemini p.2).map (fun gg => (p.1, gg))),
      tool.input_schema.required⟩, List.mem_map_of_mem _ htool, rfl, rfl, rfl, ?_⟩
    intro pname pdef hmem
    refine ⟨?_, ?_, ?_, ?_⟩
    · intro htype
      apply List.mem_filterMap.mpr
      refine ⟨(pname, pdef), hmem, ?_⟩
      have : convertPropGemini pdef = some ⟨GType.STRING, pdef.descr?.getD ""⟩ := by
        unfold convertPropGemini
        rw [if_pos htype]
      rw [this]
      rfl
    · intro htype
      apply List.mem_filterMap.mpr
      refine ⟨(pname, pdef), hmem, ?_⟩
      have : convertPropGemini pdef = some ⟨GType.INTEGER, pdef.descr?.getD ""⟩ := by
        unfold convertPropGemini
        rw [htype]
        rfl
      rw [this]
      rfl
    · intro htype
      apply List.mem_filterMap.mpr
      refine ⟨(pname, pdef), hmem, ?_⟩
      have : convertPropGemini pdef = some ⟨GType.BOOLEAN, pdef.descr?.getD ""⟩ := by
        unfold convertPropGemini
        rw [htype]
        rfl
      rw [this]
      rfl
    · intro h1 h2 h3 gs hmem'
      obtain ⟨⟨p1, p2⟩, hpmem, heq⟩ := List.mem_filterMap.mp hmem'
      have hnone : convertPropGemini p2 ≠ none := by
        intro hc
        rw [hc] at heq
        exact Option.noConfusion heq
      obtain ⟨gg, hgg⟩ := Option.ne_none_iff_exists'.mp hnone
      rw [hgg] at heq
      have hp1 : p1 = pname := congrArg Prod.fst (Option.some.injEq _ _ ▸ heq)
      have hp2 : p2 = pdef := by
        apply assoc_unique tool.input_schema.properties (hnd tool htool) pname
        · rw [← hp1]; exact hpmem
        · exact hmem
      have : convertPropGemini pdef = none := by
        unfold convertPropGemini
        rw [if_neg h1, if_neg h2, if_neg h3]
      rw [hp2, this] at hgg
      exact Option.noConfusion hgg

/-- Witness for C7's amended statement on a concrete mixed-type catalog. -/
theorem gemini_conversion_characterization_witness :
    (convert_tools_to_gemini [mixedTool]).length = [mixedTool].length :=
  (gemini_conversion_characterization [mixedTool] (by decide)).1

/-- C8 (a code bug): the OpenAI adapter serializes a tool call's input
mapping with Python `str` (`providers.py` line 110), producing a
single-quoted dict such as `\x7b'directory': './proj'\x7d`, while the
decoder applied to vendor-returned arguments (`providers.py` line 147) is
`json.loads`, which rejects single-quoted keys. The round trip the spec
requires therefore fails for every non-empty mapping: here `json.loads`
fails outright on the produced string, so decoding cannot yield the
original mapping. -/
theorem openai_arguments_not_json_decodable :
    openaiToolCallsOfBlocks
        [ContentBlock.toolUse "call_1" "list_files" [("directory", "./proj")]] =
      [⟨"call_1", "list_files", "\x7b'directory': './proj'\x7d"⟩] ∧
    json_loads (openaiArguments [("directory", "./proj")]) = none ∧
    decodeOpenaiArguments (openaiArguments [("directory", "./proj")]) ≠
      some [("directory", "./proj")] := by
  refine ⟨rfl, rfl, ?_⟩
  intro h
  rw [show decodeOpenaiArguments (openaiArguments [("directory", "./proj")]) =
    none from rfl] at h
  exact Option.noConfusion h

end UIUX
